import Mathlib

/-!
Verification of the TPU training supervisor `my_run_pretraining.py`.

The script supervises a long-running training process: it launches the
training command, tails its log file, classifies log lines against a small
set of failure signatures, and decides whether to relaunch the process,
delete and recreate the TPU resource, or stop.

This file gives a shallow embedding of the script's pure logic:
  * text is modelled as `List Char` (the byte stream is UTF-8 text; the
    decode step `bytes.rstrip().decode('utf-8')` is modelled at the
    character level),
  * the external world (subprocess results, `select` readiness, remote
    fetches) is modelled as explicit input sequences / oracles,
  * Python regular-expression searches of the three concrete patterns in
    the script are modelled by executable functions that follow Python
    `re.search` semantics (leftmost match, greedy `.*` via backtracking,
    non-greedy `(.+?)`, `.` not matching a newline).
-/

namespace Bert

/-! ## Basic text utilities -/

/-- Python whitespace as stripped by `bytes.rstrip()` and matched by `\s`. -/
def isPyWs (c : Char) : Bool :=
  c = ' ' || c = '\t' || c = '\n' || c = '\r' || c = '\x0b' || c = '\x0c'

/-- `line.rstrip()` followed by `.decode('utf-8')`, at character level:
drop trailing whitespace. -/
def decodeLine (l : List Char) : List Char :=
  (l.reverse.dropWhile isPyWs).reverse

/-- Boolean prefix test on character lists. -/
def isPrefixB : List Char → List Char → Bool
  | [], _ => true
  | _ :: _, [] => false
  | a :: as, b :: bs => a = b && isPrefixB as bs

/-- Does `pat` occur in `s` starting at index `i`? -/
def occursAtB (pat s : List Char) (i : Nat) : Bool :=
  isPrefixB pat (s.drop i)

/-- Model of `re.search` for a pattern that is a plain literal: does `pat`
occur anywhere in `s`? -/
def searchLitB (pat s : List Char) : Bool :=
  (List.range (s.length + 1)).any (occursAtB pat s)

/-- No newline among the characters (the regex `.` metacharacter does not
match `'\n'`). -/
def noNl (l : List Char) : Bool :=
  l.all (fun c => c ≠ '\n')

/-! ## The log-line signatures of `run_one`

`node_closed_p = re.compile('Cancelled: Node was closed')`
`infeed_error_p = re.compile('ERROR:tensorflow:Error recorded from infeed')`
`state_msg_p = re.compile(r'TPUPollingThread found TPU.*in state READY, and health (.+?)\.')`
-/

def nodeClosedPat : List Char := "Cancelled: Node was closed".toList

def infeedPat : List Char := "ERROR:tensorflow:Error recorded from infeed".toList

/-- The literal before `.*` in `state_msg_p`. -/
def pollLit : List Char := "TPUPollingThread found TPU".toList

/-- The literal between `.*` and `(.+?)\.` in `state_msg_p`. -/
def healthLit : List Char := "in state READY, and health ".toList

/-- Lazy match of `(.+?)\.` against the rest of the line starting after
`healthLit`: the first character is consumed by `(.+?)` (so it must not be
a newline), then scan for the first `'.'`; every character consumed before
it must not be a newline. Returns the captured characters. -/
def scanToDot : List Char → Option (List Char)
  | [] => none
  | c :: rest =>
    if c = '.' then some []
    else if c = '\n' then none
    else (scanToDot rest).map (fun q => c :: q)

/-- Lazy `(.+?)\.`: at least one captured character, capture everything up
to the first subsequent `'.'`. -/
def lazyCapture (tail : List Char) : Option (List Char) :=
  match tail with
  | [] => none
  | c :: rest => if c = '\n' then none else (scanToDot rest).map (fun q => c :: q)

/-- Is `j` a viable position for `healthLit` when the greedy `.*` started
consuming at `base`?  Requires `healthLit` at `j`, the `.*` span `[base, j)`
to be newline-free, and the lazy `(.+?)\.` to match after `healthLit`. -/
def validJ (s : List Char) (base j : Nat) : Bool :=
  occursAtB healthLit s j && decide (base ≤ j) &&
    noNl ((s.take j).drop base) && (lazyCapture (s.drop (j + healthLit.length))).isSome

/-- Greedy `.*`: the largest viable position for `healthLit` (Python's
backtracking tries the longest `.*` span first). -/
def bestJ (s : List Char) (base : Nat) : Option Nat :=
  ((List.range (s.length + 1)).filter (validJ s base)).getLast?

/-- Leftmost starting index of a full `state_msg_p` match (`re.search`
scans start positions left to right). -/
def startI (s : List Char) : Option Nat :=
  ((List.range (s.length + 1)).filter
    (fun i => occursAtB pollLit s i && (bestJ s (i + pollLit.length)).isSome)).head?

/-- `state_msg_p.search(line)`, returning `m.group(1)` on a match. -/
def stateMsgSearch (s : List Char) : Option (List Char) :=
  match startI s with
  | none => none
  | some i =>
    match bestJ s (i + pollLit.length) with
    | none => none
    | some j => lazyCapture (s.drop (j + healthLit.length))

/-! ## Log Classifier -/

/-- The optional health signal extracted from one log line. -/
inductive Signal where
  | NoSignal : Signal
  | TransientError : Signal
  | HealthReport : List Char → Signal
  deriving DecidableEq

/-- The per-line classification applied inside `run_one`'s read loop:
`node_closed_p.search`, then `infeed_error_p.search`, then
`state_msg_p.search` with its captured group. -/
def classify (line : List Char) : Signal :=
  if searchLitB nodeClosedPat line then .TransientError
  else if searchLitB infeedPat line then .TransientError
  else
    match stateMsgSearch line with
    | some st => .HealthReport st
    | none => .NoSignal

/-- The STATUS token that signals preemption. -/
def umStatus : List Char := "UNHEALTHY_MAINTENANCE".toList

/-! ## Process Monitor (`run_one`) -/

/-- `OK, ERROR, PREEMPTED = range(3)` -/
inductive Status where
  | OK : Status
  | ERROR : Status
  | PREEMPTED : Status
  deriving DecidableEq

/-- The spec's `RunOutcome` vocabulary. -/
inductive RunOutcome where
  | Completed : RunOutcome
  | Failed : RunOutcome
  | Preempted : RunOutcome
  deriving DecidableEq

/-- How a returned `tpu_status` value reads as a `RunOutcome`. -/
def toOutcome : Status → RunOutcome
  | .OK => .Completed
  | .ERROR => .Failed
  | .PREEMPTED => .Preempted

/-- Result of handling one line in the read loop: keep looping with an
updated `tpu_status`, or return from `run_one` with an outcome. -/
inductive StepRes where
  | cont : Status → StepRes
  | stop : Status → StepRes
  deriving DecidableEq

/-- The body of `for line in lines` in `run_one`: rstrip/decode the line,
then: a `node_closed_p` or `infeed_error_p` hit sets `tpu_status = ERROR`
and continues; a `state_msg_p` hit returns `PREEMPTED` when the captured
health is `UNHEALTHY_MAINTENANCE`, returns `ERROR` when `tpu_status` is
already `ERROR`, and otherwise falls through. -/
def stepLine (st : Status) (raw : List Char) : StepRes :=
  match classify (decodeLine raw) with
  | .TransientError => .cont .ERROR
  | .HealthReport s =>
    if s = umStatus then .stop .PREEMPTED
    else if st = .ERROR then .stop .ERROR
    else .cont st
  | .NoSignal => .cont st

/-- Fold `stepLine` over the complete lines of one read, with the early
returns of the `for` loop. -/
def processLines (st : Status) : List (List Char) → StepRes
  | [] => .cont st
  | l :: rest =>
    match stepLine st l with
    | .stop o => .stop o
    | .cont st' => processLines st' rest

/-- Python `data.split(b'\n')` for the one-character separator. -/
def pySplit (sep : Char) : List Char → List (List Char)
  | [] => [[]]
  | c :: rest =>
    if c = sep then [] :: pySplit sep rest
    else (c :: (pySplit sep rest).headD []) :: (pySplit sep rest).tail

/-- One observable event of `run_one`'s `select` loop: new data on the
tail pipe, the tail pipe reporting end-of-stream (`read` returned `b''`),
a timeout with the training process found exited (carrying its exit code,
which the script never reads), or a timeout with the process still
running. -/
inductive Event where
  | data : List Char → Event
  | procExited : Int → Event
  | timeoutRunning : Event

/-- The `while True` loop of `run_one`, with `tpu_status` and the held-back
fragment `old_data` as explicit state.  `none` means the supplied event
sequence ended with the loop still running. -/
def run_one_loop : Status → List Char → List Event → Option Status
  | _, _, [] => none
  | st, old, Event.timeoutRunning :: rest => run_one_loop st old rest
  | st, _, Event.procExited _ :: _ => some st
  | st, old, Event.data bytes :: rest =>
    if bytes.isEmpty then some st
    else
      match processLines st ((pySplit '\n' (old ++ bytes)).dropLast) with
      | .stop o => some o
      | .cont st' => run_one_loop st' ((pySplit '\n' (old ++ bytes)).getLastD []) rest

/-- `run_one`: the loop starts with `tpu_status = OK` and `old_data = b''`. -/
def run_one (events : List Event) : Option Status :=
  run_one_loop .OK [] events

/-- Concatenate raw byte chunks. -/
def concatAll : List (List Char) → List Char
  | [] => []
  | c :: rest => c ++ concatAll rest

/-- Emit the given lines on the stream, each terminated by a newline. -/
def joinLines : List (List Char) → List Char
  | [] => []
  | l :: rest => l ++ '\n' :: joinLines rest

/-! ## Checkpoint Locator (`last_checkpoint`) -/

/-- Result of `gsutil cp <output_dir>/checkpoint .`: either a non-zero
return code, or success together with the content of the fetched
`checkpoint` file. -/
inductive FetchResult where
  | fail : FetchResult
  | success : List Char → FetchResult

/-- The Python exception that escapes `last_checkpoint` when
`re.search(...)` returns `None` and `.group(1)` is called on it. -/
inductive PyError where
  | attributeError : PyError
  deriving DecidableEq

def cpKey : List Char := "model_checkpoint_path:".toList

/-- With `re.M`, `^` matches at the start of the string and right after
every newline. -/
def lineStartB (content : List Char) (p : Nat) : Bool :=
  p = 0 || (decide (1 ≤ p) && decide (content.getD (p - 1) ' ' = '\n'))

/-- Try to match `model_checkpoint_path:\s*"([^"]+)"$` at position `p` of
the file content (the trailing `$` with `re.M` is end-of-string or a
following newline).  Returns the captured group. -/
def cpMatchAt (content : List Char) (p : Nat) : Option (List Char) :=
  let s := content.drop p
  if isPrefixB cpKey s then
    match (s.drop cpKey.length).dropWhile isPyWs with
    | '"' :: rest2 =>
      let q := rest2.takeWhile (fun c => c ≠ '"')
      match rest2.drop q.length with
      | '"' :: tail =>
        if q ≠ [] ∧ (tail = [] ∨ tail.headD ' ' = '\n') then some q else none
      | _ => none
    | _ => none
  else none

/-- `re.search(r'^model_checkpoint_path:\s*"([^"]+)"$', content, re.M)`:
the leftmost line-start position with a match, and its captured group. -/
def cpSearch (content : List Char) : Option (List Char) :=
  (((List.range (content.length + 1)).filter
      (fun p => lineStartB content p && (cpMatchAt content p).isSome)).head?).bind
    (cpMatchAt content)

/-- `os.path.join(a, b)` on POSIX. -/
def pathJoin (a b : List Char) : List Char :=
  if b.headD ' ' = '/' then b
  else if a = [] then b
  else if a.getLastD ' ' = '/' then a ++ b
  else a ++ '/' :: b

/-- `last_checkpoint(output_dir)` as a function of the remote fetch
result.  On a successful fetch the code does `m = re.search(...)` and then
unconditionally `m.group(1)`, so a content with no matching line raises
`AttributeError` (modelled as `Except.error`). -/
def last_checkpoint (output_dir : List Char) (fetch : FetchResult) :
    Except PyError (Option (List Char)) :=
  match fetch with
  | .fail => .ok none
  | .success content =>
    match cpSearch content with
    | some p => .ok (some (pathJoin output_dir p))
    | none => .error .attributeError

/-! ## Resource Provisioner (`restart_tpu`) -/

/-- Result of one `sp.run(tpu_cmd)` creation attempt.  Because the call is
made without `shell=True`, POSIX `exec` treats the whole command string as
a single program name; when no such file exists the call raises
`FileNotFoundError` instead of producing a return code. -/
inductive RunResult where
  | code : Int → RunResult
  | fileNotFound : RunResult

/-- Errors escaping `restart_tpu`: the named `RuntimeError` of the delete
branch; the `TypeError` that the exhausted-creation branch actually
raises — its `raise RuntimeError('Could not create TPU {}.', shell=True)`
passes a stray `shell=True` keyword to the exception constructor, and
exception classes take no keyword arguments, so constructing the named
error itself fails and an *unnamed* `TypeError` propagates instead; or an
uncaught `FileNotFoundError` from `sp.run`. -/
inductive TpuError where
  | couldNotDelete : List Char → TpuError
  | typeError : TpuError
  | fileNotFoundError : TpuError
  deriving DecidableEq

/-- Outcome of the `for i in range(3)` creation loop. -/
inductive CreateOutcome where
  | ok : CreateOutcome
  | exhausted : CreateOutcome
  | raised : CreateOutcome
  deriving DecidableEq

/-- The creation loop: at most `fuel` attempts starting at attempt index
`i`; returns the list of attempt indices actually performed, and whether
one succeeded, the loop exhausted its range, or an attempt raised. -/
def createLoop (runCreate : Nat → RunResult) : Nat → Nat → List Nat × CreateOutcome
  | 0, _ => ([], .exhausted)
  | fuel + 1, i =>
    match runCreate i with
    | .fileNotFound => ([i], .raised)
    | .code c =>
      if c = 0 then ([i], .ok)
      else
        let r := createLoop runCreate fuel (i + 1)
        (i :: r.1, r.2)

/-- `restart_tpu`, as a function of the TPU name (extracted by the source
from `tpu_cmd`), the return code of the `delete` call, and the per-attempt
results of the `create` calls.  Returns the list of creation attempts that
were performed together with the result.  On the exhausted branch the
source reaches `raise RuntimeError('Could not create TPU {}.', shell=True)`
(line 72), whose construction raises `TypeError` because of the stray
keyword argument — so what escapes is an unnamed `TypeError`, never a
named error identifying the resource. -/
def restart_tpu (tpu_name : List Char) (deleteCode : Int)
    (runCreate : Nat → RunResult) : List Nat × Except TpuError Unit :=
  if deleteCode ≠ 0 then ([], .error (.couldNotDelete tpu_name))
  else
    let r := createLoop runCreate 3 0
    (r.1,
      match r.2 with
      | .ok => .ok ()
      | .exhausted => .error .typeError
      | .raised => .error .fileNotFoundError)

/-! ## Recovery Supervisor (the `while True` loop of `main`) -/

/-- The external inputs consumed by one iteration of the supervisor loop:
whether `restart_tpu` succeeds (consulted only when the iteration starts
in the `PREEMPTED` state), the result of that iteration's fresh remote
checkpoint fetch (fed through `last_checkpoint`), and the `run_one`
outcome of the launch. -/
structure IterInput where
  recreateOk : Bool
  fetch : FetchResult
  outcome : Status

/-- How a supervisor run ends (relative to the supplied inputs): the
inputs ran out with the loop still going; one of the loop's two `break`s
was reached (falling through to `logging.info('Done.')`); or an uncaught
Python exception — such as the `AttributeError` that `last_checkpoint`
raises on a malformed checkpoint artifact — escaped the loop and killed
the supervisor. -/
inductive SupExit where
  | running : SupExit
  | done : SupExit
  | crashed : PyError → SupExit
  deriving DecidableEq

/-- `full_cmd = cmd if not cp else '{} --init_checkpoint={}'.format(cmd, cp)`.
Python truthiness: both `None` and the empty string count as "no
checkpoint". -/
def buildCmd (cmd : List Char) (cp : Option (List Char)) : List Char :=
  match cp with
  | none => cmd
  | some p => if p = [] then cmd else cmd ++ " --init_checkpoint=".toList ++ p

/-- The supervisor loop of `main`.  Each iteration entered in `PREEMPTED`
first recreates the TPU (a failure breaks to `Done`); it then calls
`last_checkpoint(output_dir)` with that iteration's fresh fetch result —
if that call raises (`Except.error`), the exception propagates out of the
loop and the supervisor crashes before any launch; otherwise the launch
command is built and the iteration's outcome decides between breaking
(`OK`) and looping.  Returns the list of launched full commands in order,
and how the run ended. -/
def supRun (output_dir cmd : List Char) :
    Status → List IterInput → List (List Char) × SupExit
  | _, [] => ([], .running)
  | st, inp :: rest =>
    if st = .PREEMPTED ∧ inp.recreateOk = false then ([], .done)
    else
      match last_checkpoint output_dir inp.fetch with
      | .error e => ([], .crashed e)
      | .ok cp =>
        let full := buildCmd cmd cp
        if inp.outcome = .OK then ([full], .done)
        else
          let r := supRun output_dir cmd inp.outcome rest
          (full :: r.1, r.2)

/-! ## Spec-side Log Classifier

The classifier exactly as the spec sentence puts it: `TransientError` if
the line contains the node-closed substring or the infeed-error marker,
else `HealthReport(STATUS)` if the health-report pattern matches with
capture STATUS, else `NoSignal`.  Substring containment on the spec side
is the mathematical `List.IsInfix` relation. -/

def classify_spec (line : List Char) : Signal :=
  if nodeClosedPat <:+: line ∨ infeedPat <:+: line then .TransientError
  else
    match stateMsgSearch line with
    | some st => .HealthReport st
    | none => .NoSignal

/-! ## Helper lemmas -/

theorem isPrefixB_iff : ∀ (p s : List Char), isPrefixB p s = true ↔ p <+: s
  | [], s => by
    simp [isPrefixB, List.nil_prefix]
  | a :: as, [] => by
    simp [isPrefixB, List.prefix_nil]
  | a :: as, b :: bs => by
    simp [isPrefixB, List.cons_prefix_cons, isPrefixB_iff as bs]

theorem searchLitB_iff (pat s : List Char) :
    searchLitB pat s = true ↔ pat <:+: s := by
  unfold searchLitB
  rw [List.any_eq_true]
  constructor
  · rintro ⟨i, _, hocc⟩
    exact List.infix_iff_prefix_suffix.2
      ⟨s.drop i, (isPrefixB_iff pat (s.drop i)).1 hocc, List.drop_suffix i s⟩
  · rintro ⟨t1, t2, he⟩
    refine ⟨t1.length, ?_, ?_⟩
    · rw [List.mem_range]
      have hlen : t1.length + pat.length + t2.length = s.length := by
        rw [← he]; simp [Nat.add_assoc]
      omega
    · show isPrefixB pat (s.drop t1.length) = true
      rw [← he, List.append_assoc, List.drop_left]
      exact (isPrefixB_iff _ _).2 ⟨t2, rfl⟩

theorem stepLine_stop (st : Status) (raw : List Char) (o : Status)
    (h : stepLine st raw = .stop o) : o = .ERROR ∨ o = .PREEMPTED := by
  cases hc : classify (decodeLine raw) with
  | TransientError =>
    simp only [stepLine, hc] at h
    exact StepRes.noConfusion h
  | NoSignal =>
    simp only [stepLine, hc] at h
    exact StepRes.noConfusion h
  | HealthReport s =>
    simp only [stepLine, hc] at h
    by_cases h1 : s = umStatus
    · rw [if_pos h1] at h
      injection h with h
      exact Or.inr h.symm
    · rw [if_neg h1] at h
      by_cases h2 : st = .ERROR
      · rw [if_pos h2] at h
        injection h with h
        exact Or.inl h.symm
      · rw [if_neg h2] at h
        exact StepRes.noConfusion h

theorem stepLine_cont (st : Status) (raw : List Char) (st' : Status)
    (h : stepLine st raw = .cont st') : st' = st ∨ st' = .ERROR := by
  cases hc : classify (decodeLine raw) with
  | TransientError =>
    simp only [stepLine, hc] at h
    injection h with h
    exact Or.inr h.symm
  | NoSignal =>
    simp only [stepLine, hc] at h
    injection h with h
    exact Or.inl h.symm
  | HealthReport s =>
    simp only [stepLine, hc] at h
    by_cases h1 : s = umStatus
    · rw [if_pos h1] at h
      exact StepRes.noConfusion h
    · rw [if_neg h1] at h
      by_cases h2 : st = .ERROR
      · rw [if_pos h2] at h
        exact StepRes.noConfusion h
      · rw [if_neg h2] at h
        injection h with h
        exact Or.inl h.symm

theorem stepLine_error_cont (raw : List Char) (st' : Status)
    (h : stepLine .ERROR raw = .cont st') : st' = .ERROR := by
  rcases stepLine_cont _ _ _ h with h' | h' <;> exact h'

theorem processLines_error_cont (ls : List (List Char)) (st' : Status)
    (h : processLines .ERROR ls = .cont st') : st' = .ERROR := by
  induction ls with
  | nil =>
    simp only [processLines, StepRes.cont.injEq] at h
    exact h.symm
  | cons l rest ih =>
    simp only [processLines] at h
    cases hs : stepLine .ERROR l with
    | cont st1 =>
      rw [hs] at h
      rw [stepLine_error_cont _ _ hs] at h
      exact ih h
    | stop o1 =>
      rw [hs] at h
      exact StepRes.noConfusion h

theorem processLines_error_stop (ls : List (List Char)) (o : Status)
    (h : processLines .ERROR ls = .stop o) : o = .ERROR ∨ o = .PREEMPTED := by
  induction ls with
  | nil =>
    simp only [processLines] at h
    exact StepRes.noConfusion h
  | cons l rest ih =>
    simp only [processLines] at h
    cases hs : stepLine .ERROR l with
    | cont st1 =>
      rw [hs] at h
      rw [stepLine_error_cont _ _ hs] at h
      exact ih h
    | stop o1 =>
      rw [hs] at h
      injection h with h
      exact h ▸ stepLine_stop _ _ _ hs

theorem run_one_loop_error (old : List Char) (evs : List Event) (o : Status)
    (h : run_one_loop .ERROR old evs = some o) : o = .ERROR ∨ o = .PREEMPTED := by
  induction evs generalizing old with
  | nil => simp [run_one_loop] at h
  | cons e rest ih =>
    cases e with
    | timeoutRunning => exact ih _ h
    | procExited c =>
      simp only [run_one_loop, Option.some.injEq] at h
      exact Or.inl h.symm
    | data bytes =>
      simp only [run_one_loop] at h
      by_cases hb : bytes.isEmpty
      · rw [if_pos hb] at h
        injection h with h
        exact Or.inl h.symm
      · rw [if_neg hb] at h
        cases hp : processLines .ERROR ((pySplit '\n' (old ++ bytes)).dropLast) with
        | cont st1 =>
          rw [hp] at h
          rw [processLines_error_cont _ _ hp] at h
          exact ih _ h
        | stop o1 =>
          rw [hp] at h
          injection h with h
          exact h ▸ processLines_error_stop _ _ hp

theorem getLastD_indep : ∀ (l : List (List Char)), l ≠ [] →
    ∀ (d d' : List Char), l.getLastD d = l.getLastD d'
  | [], h, _, _ => absurd rfl h
  | b :: m, _, d, d' => by rw [List.getLastD_cons, List.getLastD_cons]

theorem getLastD_append_ne : ∀ (A B : List (List Char)) (d : List Char), B ≠ [] →
    (A ++ B).getLastD d = B.getLastD d
  | [], _, _, _ => rfl
  | a :: A, B, d, hB => by
    rw [List.cons_append, List.getLastD_cons, getLastD_append_ne A B a hB]
    exact getLastD_indep B hB a d

theorem dropLast_append_ne : ∀ (A B : List (List Char)), B ≠ [] →
    (A ++ B).dropLast = A ++ B.dropLast
  | [], _, _ => rfl
  | a :: A, B, hB => by
    rw [List.cons_append,
      List.dropLast_cons_of_ne_nil (by simp [List.append_eq_nil, hB] : A ++ B ≠ []),
      dropLast_append_ne A B hB, List.cons_append]

theorem pySplit_cons_sep (sep : Char) (rest : List Char) :
    pySplit sep (sep :: rest) = [] :: pySplit sep rest := by
  show (if sep = sep then [] :: pySplit sep rest
    else (sep :: (pySplit sep rest).headD []) :: (pySplit sep rest).tail) = _
  rw [if_pos rfl]

theorem pySplit_cons_ne (sep c : Char) (rest : List Char) (hc : c ≠ sep) :
    pySplit sep (c :: rest) =
      (c :: (pySplit sep rest).headD []) :: (pySplit sep rest).tail := by
  show (if c = sep then [] :: pySplit sep rest
    else (c :: (pySplit sep rest).headD []) :: (pySplit sep rest).tail) = _
  rw [if_neg hc]

theorem pySplit_ne_nil (sep : Char) : ∀ (l : List Char), pySplit sep l ≠ []
  | [] => by simp [pySplit]
  | c :: rest => by
    by_cases hc : c = sep
    · subst hc
      rw [pySplit_cons_sep]
      simp
    · rw [pySplit_cons_ne sep c rest hc]
      simp

theorem pySplit_of_not_mem (sep : Char) : ∀ (l : List Char), sep ∉ l →
    pySplit sep l = [l]
  | [], _ => rfl
  | c :: rest, h => by
    have hc : c ≠ sep := fun e => h (by rw [e]; exact List.mem_cons_self _ _)
    have hr : sep ∉ rest := fun e => h (List.mem_cons_of_mem c e)
    rw [pySplit_cons_ne sep c rest hc, pySplit_of_not_mem sep rest hr]
    rfl

theorem pySplit_getLastD_not_mem (sep : Char) :
    ∀ (l : List Char), sep ∉ (pySplit sep l).getLastD []
  | [] => by simp [pySplit]
  | c :: rest => by
    by_cases hc : c = sep
    · rw [hc, pySplit_cons_sep, List.getLastD_cons]
      exact pySplit_getLastD_not_mem sep rest
    · rw [pySplit_cons_ne sep c rest hc]
      obtain ⟨h1, t1, he⟩ := List.exists_cons_of_ne_nil (pySplit_ne_nil sep rest)
      have hrec := pySplit_getLastD_not_mem sep rest
      rw [he] at hrec
      rw [he]
      cases t1 with
      | nil =>
        simp only [List.headD_cons, List.tail_cons, List.getLastD_cons,
          List.getLastD_nil] at hrec ⊢
        intro hmem
        rcases List.mem_cons.1 hmem with h' | h'
        · exact hc h'.symm
        · exact hrec h'
      | cons h2 t2 =>
        simp only [List.headD_cons, List.tail_cons, List.getLastD_cons] at hrec ⊢
        exact hrec

theorem pySplit_append (sep : Char) : ∀ (x y : List Char),
    pySplit sep (x ++ y) =
      (pySplit sep x).dropLast ++ pySplit sep ((pySplit sep x).getLastD [] ++ y)
  | [], y => by simp [pySplit]
  | c :: x, y => by
    by_cases hc : c = sep
    · rw [hc, List.cons_append, pySplit_cons_sep, pySplit_cons_sep,
        pySplit_append sep x y]
      obtain ⟨h1, t1, he⟩ := List.exists_cons_of_ne_nil (pySplit_ne_nil sep x)
      rw [he, List.dropLast_cons_of_ne_nil (by simp : h1 :: t1 ≠ [])]
      simp only [List.getLastD_cons, List.cons_append]
    · rw [List.cons_append, pySplit_cons_ne sep c _ hc, pySplit_cons_ne sep c x hc,
        pySplit_append sep x y]
      obtain ⟨h1, t1, he⟩ := List.exists_cons_of_ne_nil (pySplit_ne_nil sep x)
      rw [he]
      cases t1 with
      | nil =>
        simp only [List.headD_cons, List.tail_cons, List.getLastD_cons,
          List.getLastD_nil, List.dropLast_single, List.nil_append]
        rw [List.cons_append, pySplit_cons_ne sep c (h1 ++ y) hc]
      | cons h2 t2 =>
        simp only [List.headD_cons, List.tail_cons, List.getLastD_cons,
          List.dropLast_cons₂, List.cons_append]

theorem pySplit_sep_cons (sep : Char) : ∀ (l t : List Char), sep ∉ l →
    pySplit sep (l ++ sep :: t) = l :: pySplit sep t
  | [], t, _ => by rw [List.nil_append, pySplit_cons_sep]
  | c :: l, t, h => by
    have hc : c ≠ sep := fun e => h (by rw [e]; exact List.mem_cons_self _ _)
    have hl : sep ∉ l := fun e => h (List.mem_cons_of_mem c e)
    rw [List.cons_append, pySplit_cons_ne sep c _ hc, pySplit_sep_cons sep l t hl]
    rfl

theorem pySplit_joinLines : ∀ (ls : List (List Char)), (∀ l ∈ ls, '\n' ∉ l) →
    pySplit '\n' (joinLines ls) = ls ++ [[]]
  | [], _ => rfl
  | l :: ls, h => by
    have h1 : '\n' ∉ l := h l (List.mem_cons_self _ _)
    have h2 : ∀ m ∈ ls, '\n' ∉ m := fun m hm => h m (List.mem_cons_of_mem _ hm)
    show pySplit '\n' (l ++ '\n' :: joinLines ls) = _
    rw [pySplit_sep_cons '\n' l _ h1, pySplit_joinLines ls h2]
    rfl

theorem processLines_append (st : Status) : ∀ (xs ys : List (List Char)),
    processLines st (xs ++ ys) =
      match processLines st xs with
      | .stop o => .stop o
      | .cont st' => processLines st' ys
  | [], _ => rfl
  | x :: xs, ys => by
    rw [List.cons_append]
    show (match stepLine st x with
      | StepRes.stop o => StepRes.stop o
      | StepRes.cont st' => processLines st' (xs ++ ys)) = _
    cases hs : stepLine st x with
    | stop o =>
      have hx : processLines st (x :: xs) = StepRes.stop o := by
        show (match stepLine st x with
          | StepRes.stop o => StepRes.stop o
          | StepRes.cont st' => processLines st' xs) = _
        rw [hs]
      rw [hx]
    | cont st1 =>
      have hx : processLines st (x :: xs) = processLines st1 xs := by
        show (match stepLine st x with
          | StepRes.stop o => StepRes.stop o
          | StepRes.cont st' => processLines st' xs) = _
        rw [hs]
      rw [hx]
      exact processLines_append st1 xs ys

theorem isEmpty_false_of_ne_nil {α : Type} (l : List α) (h : l ≠ []) :
    l.isEmpty = false := by
  cases l with
  | nil => exact absurd rfl h
  | cons a as => rfl

theorem joinLines_cons_ne_nil (l : List Char) (ls : List (List Char)) :
    joinLines (l :: ls) ≠ [] := by
  show l ++ '\n' :: joinLines ls ≠ []
  simp

/-- A `run_one` data event whose decoded lines make `processLines` stop
resolves the whole invocation with that outcome. -/
theorem run_one_data_stop (st : Status) (lines : List (List Char))
    (rest : List Event) (o : Status)
    (hnl : ∀ l ∈ lines, '\n' ∉ l)
    (hstop : processLines st lines = .stop o) :
    run_one_loop st [] (Event.data (joinLines lines) :: rest) = some o := by
  cases lines with
  | nil => simp [processLines] at hstop
  | cons l0 ls =>
    have hsplit := pySplit_joinLines (l0 :: ls) hnl
    have hne := joinLines_cons_ne_nil l0 ls
    simp only [run_one_loop]
    rw [if_neg (by rw [isEmpty_false_of_ne_nil _ hne]; simp)]
    rw [List.nil_append, hsplit,
      dropLast_append_ne (l0 :: ls) [[]] (by simp)]
    simp only [List.dropLast_single, List.append_nil]
    rw [hstop]

theorem processLines_error_of_mem : ∀ (pre : List (List Char)) (st st' : Status),
    processLines st pre = .cont st' →
    (∃ l ∈ pre, classify (decodeLine l) = .TransientError) → st' = .ERROR
  | [], _, _, _, h => by
    rcases h with ⟨l, hl, _⟩
    exact absurd hl (List.not_mem_nil l)
  | x :: xs, st, st', h, hex => by
    rcases hex with ⟨l, hl, hcl⟩
    have hshape : processLines st (x :: xs) =
        match stepLine st x with
        | .stop o => .stop o
        | .cont s2 => processLines s2 xs := rfl
    rcases List.mem_cons.1 hl with rfl | hmem
    · have hx : stepLine st l = .cont .ERROR := by
        simp only [stepLine, hcl]
      rw [hshape, hx] at h
      exact processLines_error_cont xs st' h
    · cases hstep : stepLine st x with
      | stop o =>
        rw [hshape, hstep] at h
        exact StepRes.noConfusion h
      | cont s2 =>
        rw [hshape, hstep] at h
        exact processLines_error_of_mem xs s2 st' h ⟨l, hmem, hcl⟩

theorem cpMatchAt_ne_nil (content : List Char) (p : Nat) (q : List Char)
    (h : cpMatchAt content p = some q) : q ≠ [] := by
  simp only [cpMatchAt] at h
  split at h
  · split at h
    · split at h
      · split at h
        · rename_i hcond
          injection h with h
          rw [← h]
          exact hcond.1
        · exact Option.noConfusion h
      · exact Option.noConfusion h
    · exact Option.noConfusion h
  · exact Option.noConfusion h

theorem cpSearch_ne_nil (content q : List Char) (h : cpSearch content = some q) :
    q ≠ [] := by
  unfold cpSearch at h
  rcases Option.bind_eq_some.mp h with ⟨p, _, hm⟩
  exact cpMatchAt_ne_nil _ _ _ hm

theorem pathJoin_ne_nil (a b : List Char) (hb : b ≠ []) : pathJoin a b ≠ [] := by
  unfold pathJoin
  split
  · exact hb
  · split
    · exact hb
    · split
      · simp [hb]
      · simp

/-! ## Claim theorems -/

/-- C1 (counterexample): a run in which the child exits with the non-zero
status code 1 and no health/error signature was observed does *not*
resolve to `Failed`: `run_one` returns the `OK` flag, i.e. `Completed`
(the exit code is never inspected), so the supervisor stops. -/
theorem run_one_nonzero_exit_not_failed :
    run_one [Event.procExited 1] = some Status.OK ∧
    toOutcome Status.OK = RunOutcome.Completed ∧
    RunOutcome.Completed ≠ RunOutcome.Failed :=
  ⟨rfl, rfl, by decide⟩

/-- C1 (amended): when the child process is found exited — with any exit
code, non-zero included — and no further data is pending, `run_one`
returns the current status flag without inspecting the exit code; in
particular a run with no observed health/error signature (flag still
`OK`) resolves to `Completed`, so the Recovery Supervisor stops rather
than relaunching. -/
theorem run_one_exit_returns_flag (st : Status) (old : List Char) (c : Int)
    (rest : List Event) :
    run_one_loop st old (Event.procExited c :: rest) = some st ∧
    run_one (Event.procExited c :: rest) = some Status.OK ∧
    toOutcome Status.OK = RunOutcome.Completed :=
  ⟨rfl, rfl, rfl⟩

/-- C2 (counterexample): a run whose stream carries a `TransientError`
line (node-closed) followed by a `HealthReport` line whose STATUS is
`UNHEALTHY_MAINTENANCE` resolves `PREEMPTED`, not `ERROR`/Failed — the
claim's "any STATUS value, including UNHEALTHY_MAINTENANCE" is false for
the maintenance status. -/
theorem run_one_error_then_unhealthy_preempted :
    run_one [Event.data
        ("x Cancelled: Node was closed\nTPUPollingThread found TPU t in state READY, and health UNHEALTHY_MAINTENANCE.\n".toList)] =
      some Status.PREEMPTED ∧
    some Status.PREEMPTED ≠ some Status.ERROR :=
  ⟨by decide, by decide⟩

/-- C2 (amended): once a `TransientError` line has been observed, the
next observed `HealthReport` line whose STATUS is *not*
`UNHEALTHY_MAINTENANCE` makes `run_one` return `ERROR` (Failed): `pre`
sets the pending-error flag and processing stops at `hline` with
`ERROR`. -/
theorem run_one_error_then_health_failed (st' : Status)
    (pre post : List (List Char)) (hline s : List Char) (rest : List Event)
    (hnl : ∀ l ∈ pre ++ hline :: post, '\n' ∉ l)
    (herr : ∃ l ∈ pre, classify (decodeLine l) = .TransientError)
    (hpre : processLines .OK pre = .cont st')
    (hcl : classify (decodeLine hline) = .HealthReport s)
    (hs : s ≠ umStatus) :
    run_one (Event.data (joinLines (pre ++ hline :: post)) :: rest) =
      some Status.ERROR := by
  have hE : st' = Status.ERROR := processLines_error_of_mem pre .OK st' hpre herr
  subst hE
  have hstep : stepLine .ERROR hline = .stop .ERROR := by
    simp [stepLine, hcl, hs]
  have hplines : processLines .OK (pre ++ hline :: post) = .stop .ERROR := by
    rw [processLines_append .OK pre (hline :: post), hpre]
    show (match stepLine .ERROR hline with
      | StepRes.stop o => StepRes.stop o
      | StepRes.cont s2 => processLines s2 post) = _
    rw [hstep]
  exact run_one_data_stop .OK (pre ++ hline :: post) rest .ERROR hnl hplines

/-- C2 (witness): a concrete node-closed line followed by a `HEALTHY`
health report yields `ERROR`. -/
theorem run_one_error_then_health_failed_w :
    run_one (Event.data (joinLines
        ["e Cancelled: Node was closed".toList,
         "TPUPollingThread found TPU t in state READY, and health HEALTHY.".toList]) :: []) =
      some Status.ERROR :=
  run_one_error_then_health_failed .ERROR
    ["e Cancelled: Node was closed".toList] []
    "TPUPollingThread found TPU t in state READY, and health HEALTHY.".toList
    "HEALTHY".toList [] (by decide) (by decide) (by decide) (by decide) (by decide)

/-- C3: the first observed line classified as a health report with the
captured STATUS equal to `UNHEALTHY_MAINTENANCE` makes `run_one` return
`PREEMPTED` — regardless of the pending-error flag `st'` accumulated over
the earlier lines (`st'` is universally quantified, so both `OK` and
`ERROR` are covered). -/
theorem run_one_um_preempted (st' : Status) (pre post : List (List Char))
    (hline : List Char) (rest : List Event)
    (hnl : ∀ l ∈ pre ++ hline :: post, '\n' ∉ l)
    (hpre : processLines .OK pre = .cont st')
    (hcl : classify (decodeLine hline) = .HealthReport umStatus) :
    run_one (Event.data (joinLines (pre ++ hline :: post)) :: rest) =
      some Status.PREEMPTED := by
  have hstep : stepLine st' hline = .stop .PREEMPTED := by
    simp [stepLine, hcl]
  have hplines : processLines .OK (pre ++ hline :: post) = .stop .PREEMPTED := by
    rw [processLines_append .OK pre (hline :: post), hpre]
    show (match stepLine st' hline with
      | StepRes.stop o => StepRes.stop o
      | StepRes.cont s2 => processLines s2 post) = _
    rw [hstep]
  exact run_one_data_stop .OK (pre ++ hline :: post) rest .PREEMPTED hnl hplines

/-- C3 (witness): with the pending-error flag already set to `ERROR` by a
node-closed line, the `UNHEALTHY_MAINTENANCE` health report still yields
`PREEMPTED`. -/
theorem run_one_um_preempted_w :
    run_one (Event.data (joinLines
        ["x Cancelled: Node was closed".toList,
         "TPUPollingThread found TPU t in state READY, and health UNHEALTHY_MAINTENANCE.".toList]) :: []) =
      some Status.PREEMPTED :=
  run_one_um_preempted .ERROR ["x Cancelled: Node was closed".toList] []
    "TPUPollingThread found TPU t in state READY, and health UNHEALTHY_MAINTENANCE.".toList
    [] (by decide) (by decide) (by decide)

/-- C9: within one run, the lines read from the stream are classified in
exactly emission order with none reordered or dropped: feeding any
sequence of (non-empty) reads is equivalent to folding `processLines`
over the complete lines of the *concatenated* byte stream, the sole
carry-over being the incomplete trailing fragment (`getLastD`), which is
held back and prefixed onto the next read before re-splitting. -/
theorem run_one_lines_in_order (st : Status) (old : List Char)
    (chunks : List (List Char)) (rest : List Event)
    (hold : '\n' ∉ old) (hch : ∀ c ∈ chunks, c ≠ []) :
    run_one_loop st old (chunks.map Event.data ++ rest) =
      (match processLines st ((pySplit '\n' (old ++ concatAll chunks)).dropLast) with
       | StepRes.stop o => some o
       | StepRes.cont st2 =>
           run_one_loop st2 ((pySplit '\n' (old ++ concatAll chunks)).getLastD []) rest) := by
  induction chunks generalizing st old with
  | nil =>
    simp only [List.map_nil, List.nil_append, concatAll, List.append_nil]
    rw [pySplit_of_not_mem '\n' old hold]
    rfl
  | cons c cs ih =>
    have hc0 : c ≠ [] := hch c (List.mem_cons_self _ _)
    have hcs : ∀ d ∈ cs, d ≠ [] := fun d hd => hch d (List.mem_cons_of_mem _ hd)
    simp only [List.map_cons, List.cons_append]
    show (if c.isEmpty then some st
      else match processLines st ((pySplit '\n' (old ++ c)).dropLast) with
        | StepRes.stop o => some o
        | StepRes.cont st2 =>
            run_one_loop st2 ((pySplit '\n' (old ++ c)).getLastD [])
              (cs.map Event.data ++ rest)) = _
    rw [if_neg (by rw [isEmpty_false_of_ne_nil c hc0]; simp)]
    have hr : old ++ concatAll (c :: cs) = (old ++ c) ++ concatAll cs := by
      show old ++ (c ++ concatAll cs) = _
      rw [List.append_assoc]
    rw [hr, pySplit_append '\n' (old ++ c) (concatAll cs),
      dropLast_append_ne _ _
        (pySplit_ne_nil '\n' ((pySplit '\n' (old ++ c)).getLastD [] ++ concatAll cs)),
      getLastD_append_ne _ _ []
        (pySplit_ne_nil '\n' ((pySplit '\n' (old ++ c)).getLastD [] ++ concatAll cs)),
      processLines_append st]
    cases hPA : processLines st ((pySplit '\n' (old ++ c)).dropLast) with
    | stop o => rfl
    | cont st2 =>
      exact ih st2 ((pySplit '\n' (old ++ c)).getLastD [])
        (pySplit_getLastD_not_mem '\n' (old ++ c)) hcs

/-- C9 (witness): two concrete reads, the first ending in an incomplete
fragment, behave exactly as the re-split concatenated stream: after
consuming both reads the loop continues with flag `OK` and held-back
fragment `"ef"`. -/
theorem run_one_lines_in_order_w :
    run_one_loop .OK [] [Event.data "ab".toList, Event.data "cd\nef".toList] =
      run_one_loop .OK "ef".toList [] :=
  run_one_lines_in_order .OK [] ["ab".toList, "cd\nef".toList] []
    (by decide) (by decide)

/-- C4: the inlined classification of `run_one` agrees, on every input
line, with the spec's case analysis: `TransientError` when the line
contains the node-closed substring or the infeed-error marker,
`HealthReport(STATUS)` with the captured token when the health-report
pattern matches, and `NoSignal` for every other line. -/
theorem classify_matches_spec (line : List Char) :
    classify line = classify_spec line := by
  by_cases hn : nodeClosedPat <:+: line
  · have hb : searchLitB nodeClosedPat line = true := (searchLitB_iff _ _).2 hn
    simp [classify, classify_spec, hb, hn]
  · have hb : searchLitB nodeClosedPat line = false := by
      cases h : searchLitB nodeClosedPat line
      · rfl
      · exact absurd ((searchLitB_iff _ _).1 h) hn
    by_cases hi : infeedPat <:+: line
    · have hb2 : searchLitB infeedPat line = true := (searchLitB_iff _ _).2 hi
      simp [classify, classify_spec, hb, hb2, hi]
    · have hb2 : searchLitB infeedPat line = false := by
        cases h : searchLitB infeedPat line
        · rfl
        · exact absurd ((searchLitB_iff _ _).1 h) hi
      simp [classify, classify_spec, hb, hb2, hn, hi]

/-- C5: `last_checkpoint` evaluated at the failing input.  When the remote
fetch fails the lookup indeed degrades to "no checkpoint"; but when the
fetch succeeds and the artifact contains no `model_checkpoint_path: "..."`
line, the unchecked `m.group(1)` raises `AttributeError`, which propagates
and terminates the supervisor.  The third conjunct shows the successful
parse for contrast. -/
theorem last_checkpoint_parse_failure_raises :
    last_checkpoint "gs://b/out".toList (.success "junk".toList) =
      .error .attributeError ∧
    last_checkpoint "gs://b/out".toList .fail = .ok none ∧
    last_checkpoint "gs://b/out".toList
        (.success "model_checkpoint_path: \"model.ckpt-500\"".toList) =
      .ok (some "gs://b/out/model.ckpt-500".toList) :=
  ⟨rfl, rfl, rfl⟩

/-- C6: `restart_tpu` evaluated at the failing inputs.  The claim's
delete-failure half is what the code does (no creation attempt, a named
fatal error).  The creation half fails twice over.  First,
`sp.run(tpu_cmd)` is invoked without `shell=True`, so with a real
multi-word `tpu_cmd` the very first attempt raises `FileNotFoundError`:
no retry ever happens (first conjunct).  Second, even if `sp.run`
returned status codes, after the 3 failed attempts the
`raise RuntimeError('Could not create TPU {}.', shell=True)` of line 72
itself raises `TypeError` (exception classes take no keyword arguments),
so what propagates is an unnamed `TypeError`, never the claimed named
error identifying the resource (third conjunct). -/
theorem restart_tpu_create_not_retried :
    restart_tpu "tpu1".toList 0 (fun _ => RunResult.fileNotFound) =
      ([0], .error .fileNotFoundError) ∧
    restart_tpu "tpu1".toList 1 (fun _ => RunResult.fileNotFound) =
      ([], .error (.couldNotDelete "tpu1".toList)) ∧
    restart_tpu "tpu1".toList 0 (fun _ => RunResult.code 1) =
      ([0, 1, 2], .error .typeError) :=
  ⟨rfl, rfl, rfl⟩

/-- Unfolding of one supervisor iteration (the `show` below is the
definitional shape of `supRun` on a cons): an iteration entered in
`PREEMPTED` whose recreation fails halts at `Done` with no launch. -/
theorem supRun_cons_halt (od cmd : List Char) (st : Status) (inp : IterInput)
    (rest : List IterInput) (h : st = .PREEMPTED ∧ inp.recreateOk = false) :
    supRun od cmd st (inp :: rest) = ([], .done) := by
  show (if st = .PREEMPTED ∧ inp.recreateOk = false then ([], SupExit.done)
    else match last_checkpoint od inp.fetch with
      | .error e => ([], SupExit.crashed e)
      | .ok cp =>
        if inp.outcome = .OK then ([buildCmd cmd cp], SupExit.done)
        else (buildCmd cmd cp :: (supRun od cmd inp.outcome rest).1,
              (supRun od cmd inp.outcome rest).2)) = _
  rw [if_pos h]

/-- An iteration whose checkpoint lookup raises crashes the supervisor
out of the loop before any launch. -/
theorem supRun_cons_crash (od cmd : List Char) (st : Status) (inp : IterInput)
    (rest : List IterInput) (e : PyError)
    (h : ¬(st = .PREEMPTED ∧ inp.recreateOk = false))
    (hlc : last_checkpoint od inp.fetch = .error e) :
    supRun od cmd st (inp :: rest) = ([], .crashed e) := by
  show (if st = .PREEMPTED ∧ inp.recreateOk = false then ([], SupExit.done)
    else match last_checkpoint od inp.fetch with
      | .error e => ([], SupExit.crashed e)
      | .ok cp =>
        if inp.outcome = .OK then ([buildCmd cmd cp], SupExit.done)
        else (buildCmd cmd cp :: (supRun od cmd inp.outcome rest).1,
              (supRun od cmd inp.outcome rest).2)) = _
  rw [if_neg h, hlc]

/-- An iteration whose checkpoint lookup returns normally and whose
outcome is `OK` performs its launch and halts at `Done`. -/
theorem supRun_cons_launch_done (od cmd : List Char) (st : Status)
    (inp : IterInput) (rest : List IterInput) (cp : Option (List Char))
    (h : ¬(st = .PREEMPTED ∧ inp.recreateOk = false))
    (hlc : last_checkpoint od inp.fetch = .ok cp) (hok : inp.outcome = .OK) :
    supRun od cmd st (inp :: rest) = ([buildCmd cmd cp], .done) := by
  show (if st = .PREEMPTED ∧ inp.recreateOk = false then ([], SupExit.done)
    else match last_checkpoint od inp.fetch with
      | .error e => ([], SupExit.crashed e)
      | .ok cp =>
        if inp.outcome = .OK then ([buildCmd cmd cp], SupExit.done)
        else (buildCmd cmd cp :: (supRun od cmd inp.outcome rest).1,
              (supRun od cmd inp.outcome rest).2)) = _
  rw [if_neg h, hlc]
  show (if inp.outcome = .OK then ([buildCmd cmd cp], SupExit.done)
    else (buildCmd cmd cp :: (supRun od cmd inp.outcome rest).1,
          (supRun od cmd inp.outcome rest).2)) = _
  rw [if_pos hok]

/-- An iteration whose checkpoint lookup returns normally and whose
outcome is not `OK` performs its launch and loops. -/
theorem supRun_cons_launch_next (od cmd : List Char) (st : Status)
    (inp : IterInput) (rest : List IterInput) (cp : Option (List Char))
    (h : ¬(st = .PREEMPTED ∧ inp.recreateOk = false))
    (hlc : last_checkpoint od inp.fetch = .ok cp) (hok : inp.outcome ≠ .OK) :
    supRun od cmd st (inp :: rest) =
      (buildCmd cmd cp :: (supRun od cmd inp.outcome rest).1,
       (supRun od cmd inp.outcome rest).2) := by
  show (if st = .PREEMPTED ∧ inp.recreateOk = false then ([], SupExit.done)
    else match last_checkpoint od inp.fetch with
      | .error e => ([], SupExit.crashed e)
      | .ok cp =>
        if inp.outcome = .OK then ([buildCmd cmd cp], SupExit.done)
        else (buildCmd cmd cp :: (supRun od cmd inp.outcome rest).1,
              (supRun od cmd inp.outcome rest).2)) = _
  rw [if_neg h, hlc]
  show (if inp.outcome = .OK then ([buildCmd cmd cp], SupExit.done)
    else (buildCmd cmd cp :: (supRun od cmd inp.outcome rest).1,
          (supRun od cmd inp.outcome rest).2)) = _
  rw [if_neg hok]

/-- Arbitrarily many `Failed` outcomes keep the supervisor relaunching:
`n` iterations whose fetch fails benignly (checkpoint lookup returns
`None`) and whose outcome is `ERROR` produce `n` launches of the bare
command, with the loop still running. -/
theorem supRun_replicate (od cmd : List Char) :
    ∀ (n : Nat) (st0 : Status),
      supRun od cmd st0 (List.replicate n ⟨true, .fail, .ERROR⟩) =
        (List.replicate n cmd, .running)
  | 0, _ => rfl
  | n + 1, st0 => by
    rw [List.replicate_succ,
      supRun_cons_launch_next od cmd st0 ⟨true, FetchResult.fail, Status.ERROR⟩
        (List.replicate n ⟨true, FetchResult.fail, Status.ERROR⟩) none
        (by simp) rfl (by simp),
      supRun_replicate od cmd n .ERROR, List.replicate_succ]
    rfl

/-- C7 (counterexample): the loop does not exit only at a `Completed`
outcome or a failed recreation: a run whose first iteration successfully
fetches a checkpoint artifact containing no `model_checkpoint_path` line
terminates by an uncaught `AttributeError` from `last_checkpoint` before
any launch, with no `Completed` outcome and no recreation failure. -/
theorem supervisor_crash_exit :
    supRun "gs://b/out".toList "run".toList .OK
        [⟨true, FetchResult.success "junk".toList, .ERROR⟩] =
      ([], SupExit.crashed .attributeError) ∧
    SupExit.crashed PyError.attributeError ≠ SupExit.done :=
  ⟨rfl, by decide⟩

/-- C7 (amended): the supervisor loop reaches `Done` exactly at its two
`break`s — a failed TPU recreation on an iteration entered in the
`PREEMPTED` state (no launch is performed), or a launch whose outcome is
`OK`/`Completed`; additionally, an iteration whose checkpoint lookup
raises (malformed fetched artifact, the C5 bug) crashes the supervisor
out of the loop before launching.  On any iteration whose lookup returns
normally and whose outcome is not `OK` (with successful recreation where
needed) the loop performs another launch, and there is no maximum retry
count: `n` consecutive `Failed` outcomes yield `n` launches with the
loop still running, for every `n`. -/
theorem supervisor_loop_spec (od cmd : List Char) (st : Status) (inp : IterInput)
    (rest : List IterInput) :
    (st = .PREEMPTED ∧ inp.recreateOk = false →
       supRun od cmd st (inp :: rest) = ([], .done)) ∧
    (∀ e : PyError, ¬(st = .PREEMPTED ∧ inp.recreateOk = false) →
       last_checkpoint od inp.fetch = .error e →
       supRun od cmd st (inp :: rest) = ([], .crashed e)) ∧
    (∀ cp : Option (List Char), ¬(st = .PREEMPTED ∧ inp.recreateOk = false) →
       last_checkpoint od inp.fetch = .ok cp → inp.outcome = .OK →
       supRun od cmd st (inp :: rest) = ([buildCmd cmd cp], .done)) ∧
    (∀ cp : Option (List Char), ¬(st = .PREEMPTED ∧ inp.recreateOk = false) →
       last_checkpoint od inp.fetch = .ok cp → inp.outcome ≠ .OK →
       supRun od cmd st (inp :: rest) =
         (buildCmd cmd cp :: (supRun od cmd inp.outcome rest).1,
          (supRun od cmd inp.outcome rest).2)) ∧
    (∀ (n : Nat) (st0 : Status),
       supRun od cmd st0 (List.replicate n ⟨true, .fail, .ERROR⟩) =
         (List.replicate n cmd, .running)) :=
  ⟨fun h => supRun_cons_halt od cmd st inp rest h,
   fun e h he => supRun_cons_crash od cmd st inp rest e h he,
   fun cp h hc hok => supRun_cons_launch_done od cmd st inp rest cp h hc hok,
   fun cp h hc hok => supRun_cons_launch_next od cmd st inp rest cp h hc hok,
   supRun_replicate od cmd⟩

/-- C7 (witness): at a concrete iteration entered in `PREEMPTED` with a
failing recreation, the loop halts at `Done` with no launch. -/
theorem supervisor_loop_spec_w :
    supRun "gs://b/out".toList "run".toList .PREEMPTED
        [⟨false, FetchResult.fail, .OK⟩] = ([], .done) :=
  (supervisor_loop_spec "gs://b/out".toList "run".toList .PREEMPTED
    ⟨false, FetchResult.fail, .OK⟩ []).1 ⟨rfl, rfl⟩

/-- C8: the launch command of the `i`-th loop iteration is built from the
checkpoint returned by that iteration's own fresh `last_checkpoint` query
(the model consumes one fetch result per iteration; no value is carried
across iterations, and an iteration that crashes in the lookup performs
no launch at all), and it equals the base command with the appended
`--init_checkpoint=` resume argument exactly when a checkpoint was found
(`last_checkpoint` never returns the empty path, so Python truthiness
agrees with "found"), and the unmodified base command otherwise. -/
theorem launch_uses_fresh_checkpoint (od cmd : List Char) (st : Status)
    (inputs : List IterInput) :
    buildCmd cmd none = cmd ∧
    (∀ p : List Char, p ≠ [] →
       buildCmd cmd (some p) = cmd ++ " --init_checkpoint=".toList ++ p) ∧
    (∀ i : Nat, i < (supRun od cmd st inputs).1.length →
       ∃ cp : Option (List Char),
         last_checkpoint od ((inputs.getD i ⟨true, .fail, .OK⟩).fetch) = .ok cp ∧
         (supRun od cmd st inputs).1.getD i [] = buildCmd cmd cp) ∧
    (∀ (od2 : List Char) (f : FetchResult) (p : List Char),
       last_checkpoint od2 f = .ok (some p) → p ≠ []) := by
  refine ⟨rfl, ?_, ?_, ?_⟩
  · intro p hp
    show (if p = [] then cmd else cmd ++ " --init_checkpoint=".toList ++ p) = _
    rw [if_neg hp]
  · induction inputs generalizing st with
    | nil => intro i hi; simp [supRun] at hi
    | cons inp rest ih =>
      intro i hi
      by_cases h : st = .PREEMPTED ∧ inp.recreateOk = false
      · rw [supRun_cons_halt od cmd st inp rest h] at hi
        simp at hi
      · cases hlc : last_checkpoint od inp.fetch with
        | error e =>
          rw [supRun_cons_crash od cmd st inp rest e h hlc] at hi
          simp at hi
        | ok cp =>
          by_cases hok : inp.outcome = .OK
          · rw [supRun_cons_launch_done od cmd st inp rest cp h hlc hok] at hi ⊢
            simp only [List.length_cons, List.length_nil] at hi
            have hi0 : i = 0 := by omega
            subst hi0
            exact ⟨cp, hlc, rfl⟩
          · rw [supRun_cons_launch_next od cmd st inp rest cp h hlc hok] at hi ⊢
            cases i with
            | zero => exact ⟨cp, hlc, rfl⟩
            | succ j =>
              simp only [List.length_cons, Nat.succ_lt_succ_iff] at hi
              simpa using ih inp.outcome j hi
  · intro od2 f p h
    cases f with
    | fail =>
      simp only [last_checkpoint, Except.ok.injEq] at h
      exact Option.noConfusion h
    | success content =>
      have h' : (match cpSearch content with
          | some q => Except.ok (some (pathJoin od2 q))
          | none => (.error .attributeError : Except PyError (Option (List Char)))) =
          .ok (some p) := h
      cases hc : cpSearch content with
      | none =>
        rw [hc] at h'
        exact Except.noConfusion h'
      | some q =>
        rw [hc] at h'
        have hq : pathJoin od2 q = p := by
          injection h' with h''
          injection h'' with h''
        rw [← hq]
        exact pathJoin_ne_nil _ _ (cpSearch_ne_nil _ _ hc)

/-- C8 (witness): the resume argument appended for a concrete found
checkpoint. -/
theorem launch_uses_fresh_checkpoint_w :
    buildCmd "run".toList (some "gs://b/out/model.ckpt-500".toList) =
      "run".toList ++ " --init_checkpoint=".toList ++
        "gs://b/out/model.ckpt-500".toList :=
  (launch_uses_fresh_checkpoint "gs://b/out".toList "run".toList .OK []).2.1 _
    (by decide)

/-- C10: within one `run_one` invocation the status flag is monotone —
a line step that keeps looping either preserves the flag or moves it to
`ERROR` (never back), a transient-error line always sets the flag to
`ERROR`, the run starts at `OK`, and any invocation that begins (or, by
monotonicity, ever arrives) at the `ERROR` flag can only return the
`ERROR` (Failed) or `PREEMPTED` (Preempted) outcome — never `OK`
(Completed). -/
theorem run_one_flag_monotone :
    (∀ (st : Status) (raw : List Char) (st' : Status),
       stepLine st raw = .cont st' → st' = st ∨ st' = .ERROR) ∧
    (∀ (st : Status) (raw : List Char),
       classify (decodeLine raw) = .TransientError → stepLine st raw = .cont .ERROR) ∧
    (∀ evs : List Event, run_one evs = run_one_loop .OK [] evs) ∧
    (∀ (old : List Char) (evs : List Event) (o : Status),
       run_one_loop .ERROR old evs = some o → o = .ERROR ∨ o = .PREEMPTED) := by
  refine ⟨stepLine_cont, ?_, fun _ => rfl, run_one_loop_error⟩
  intro st raw h
  unfold stepLine
  rw [h]

/-- C10 (witness): the monotonicity theorem applied to a concrete
`ERROR`-flagged run that ends by process exit. -/
theorem run_one_flag_monotone_w :
    Status.ERROR = Status.ERROR ∨ Status.ERROR = Status.PREEMPTED :=
  run_one_flag_monotone.2.2.2 [] [Event.procExited 0] Status.ERROR rfl

end Bert
